import Mathlib

/-
Verification of the odds-normalization and adjustment engine of the
anytime-touchdown service (src/main.py).

The Python source is embedded shallowly:
 * float arithmetic is modelled exactly over ℚ (the formulas of the source
   are rational functions, so every value the source manipulates has an
   exact rational counterpart);
 * Python 3's `round` — round half to even — is modelled by `pyRound`;
 * functions that `raise` are modelled in `Except String`;
 * Python dicts are modelled as association lists with insert-or-update
   (`dictInsert`), preserving Python's "last write wins, first position
   kept" semantics;
 * the regex line patterns of `parse_top200_blob` are modelled by
   structural matchers over `List Char` (see the section on roster
   parsing for the correspondence argument);
 * network fetches are parameters of type `Except String _`: an `error`
   is a raised `requests` exception, `ok` is the decoded payload.
-/

/- Rational arithmetic must evaluate inside `decide`; Batteries seals these. -/
unseal Rat.add Rat.sub Rat.mul Rat.inv

/- ===================== Rounding and conversions ===================== -/

/-- Python 3 `round` to an integer, applied to an exact rational: round to
nearest, half to even, as `int(round(x))` computes in src/main.py. -/
def pyRound (q : ℚ) : ℤ :=
  let f := Int.floor q
  if q - f < 1/2 then f
  else if 1/2 < q - f then f + 1
  else if f % 2 = 0 then f else f + 1

/-- Python `round(x, 4)` on an exact rational. -/
def round4 (q : ℚ) : ℚ := (pyRound (q * 10000) : ℚ) / 10000

/-- Python `round(x, 2)` on an exact rational. -/
def round2 (q : ℚ) : ℚ := (pyRound (q * 100) : ℚ) / 100

/-- Python `round(x, 1)` on an exact rational. -/
def round1 (q : ℚ) : ℚ := (pyRound (q * 10) : ℚ) / 10

/-- Embedding of `american_to_prob` (src/main.py lines 273-280): raises on
zero odds, `(-o)/((-o)+100)` for negative odds, `100/(o+100)` otherwise. -/
def american_to_prob (odds : ℚ) : Except String ℚ :=
  if odds = 0 then Except.error "American odds cannot be 0"
  else if odds < 0 then Except.ok ((-odds) / ((-odds) + 100))
  else Except.ok (100 / (odds + 100))

/-- Embedding of `prob_to_american` (src/main.py lines 282-287): clamp into
`[0.001, 0.999]`, then round the branch formula with Python's `round`. -/
def prob_to_american (p : ℚ) : ℤ :=
  let p' := max (min p (999/1000)) (1/1000)
  if 1/2 ≤ p' then pyRound (-100 * p' / (1 - p'))
  else pyRound (100 * (1 - p') / p')

/-- Embedding of `decimal_to_american` (src/main.py lines 289-295). -/
def decimal_to_american (d : ℚ) : ℤ :=
  if d ≤ 1 then -1000
  else if 2 ≤ d then pyRound ((d - 1) * 100)
  else pyRound (-100 / (d - 1))

/-- Embedding of `clamp_prob` (src/main.py lines 297-298), default bounds
`[0.01, 0.95]`. -/
def clamp_prob (p : ℚ) (lo : ℚ := 1/100) (hi : ℚ := 19/20) : ℚ :=
  max lo (min hi p)

/-- Rounding to the nearest integer with ties away from zero — the rounding
rule the spec's sentence ascribes to `probabilityToAmerican`. Modelled from
the spec's words, for comparison with the source's `pyRound`. -/
def roundTiesAway (q : ℚ) : ℤ :=
  if 0 ≤ q then Int.floor (q + 1/2) else -Int.floor (-q + 1/2)

/-- The probability-to-American conversion exactly as the claim words it,
with ties-away-from-zero rounding. Modelled from the spec's words, for
comparison with `prob_to_american`. -/
def prob_to_american_claimed (p : ℚ) : ℤ :=
  let p' := max (min p (999/1000)) (1/1000)
  if 1/2 ≤ p' then roundTiesAway (-100 * p' / (1 - p'))
  else roundTiesAway (100 * (1 - p') / p')

/-- The unrounded branch formula of `prob_to_american` after clamping. -/
def probTargetFormula (p : ℚ) : ℚ :=
  let p' := max (min p (999/1000)) (1/1000)
  if 1/2 ≤ p' then -100 * p' / (1 - p') else 100 * (1 - p') / p'

/- ===================== Lemmas about pyRound ===================== -/

lemma pyRound_def (q : ℚ) :
    pyRound q =
      if q - Int.floor q < 1/2 then Int.floor q
      else if 1/2 < q - Int.floor q then Int.floor q + 1
      else if Int.floor q % 2 = 0 then Int.floor q else Int.floor q + 1 := rfl

lemma pyRound_dist_le (q : ℚ) : |(pyRound q : ℚ) - q| ≤ 1/2 := by
  rw [pyRound_def]
  have hf : (Int.floor q : ℚ) ≤ q := Int.floor_le q
  have hf2 : q < Int.floor q + 1 := Int.lt_floor_add_one q
  by_cases h1 : q - Int.floor q < 1/2
  · rw [if_pos h1, abs_le]
    constructor <;> linarith
  · rw [if_neg h1]
    by_cases h2 : (1:ℚ)/2 < q - Int.floor q
    · rw [if_pos h2, abs_le]
      push_cast
      constructor <;> linarith
    · rw [if_neg h2]
      have heq : q - Int.floor q = 1/2 := le_antisymm (not_lt.mp h2) (not_lt.mp h1)
      by_cases h3 : Int.floor q % 2 = 0
      · rw [if_pos h3, abs_le]
        constructor <;> linarith
      · rw [if_neg h3, abs_le]
        push_cast
        constructor <;> linarith

lemma pyRound_tie_even (q : ℚ) (h : |(pyRound q : ℚ) - q| = 1/2) :
    pyRound q % 2 = 0 := by
  rw [pyRound_def] at h ⊢
  have hf : (Int.floor q : ℚ) ≤ q := Int.floor_le q
  have hf2 : q < Int.floor q + 1 := Int.lt_floor_add_one q
  by_cases h1 : q - Int.floor q < 1/2
  · rw [if_pos h1] at h ⊢
    rw [abs_sub_comm, abs_of_nonneg (by linarith)] at h
    exfalso; linarith
  · rw [if_neg h1] at h ⊢
    by_cases h2 : (1:ℚ)/2 < q - Int.floor q
    · rw [if_pos h2] at h ⊢
      rw [abs_of_nonneg (by push_cast; linarith)] at h
      push_cast at h
      exfalso; linarith
    · rw [if_neg h2] at h ⊢
      by_cases h3 : Int.floor q % 2 = 0
      · rw [if_pos h3]
        exact h3
      · rw [if_neg h3]
        omega

/- ===================== C4: prob_to_american ===================== -/

/-- C4 (amended). `prob_to_american` clamps `p` into `[0.001, 0.999]` and
returns the integer nearest to `-100·p'/(1-p')` when the clamped `p' ≥ 0.5`
and to `100·(1-p')/p'` otherwise; a tie is broken toward the even integer
(Python 3 `round`), not away from zero; `prob_to_american (1/2) = -100`. -/
theorem prob_to_american_nearest (p : ℚ) :
    |(prob_to_american p : ℚ) - probTargetFormula p| ≤ 1/2
    ∧ (|(prob_to_american p : ℚ) - probTargetFormula p| = 1/2 →
        prob_to_american p % 2 = 0)
    ∧ prob_to_american (1/2) = -100 := by
  refine ⟨?_, ?_, by decide⟩
  · unfold prob_to_american probTargetFormula
    by_cases h : 1/2 ≤ max (min p (999/1000)) (1/1000) <;>
      simp only [h, if_true, if_false] <;> exact pyRound_dist_le _
  · unfold prob_to_american probTargetFormula
    by_cases h : 1/2 ≤ max (min p (999/1000)) (1/1000) <;>
      simp only [h, if_true, if_false] <;> exact pyRound_tie_even _

/-- C4 witness: at `p = 201/401` the formula value is exactly `-100.5`, a
tie, and the source's result `-100` is the even choice. -/
theorem prob_to_american_nearest_witness :
    |(prob_to_american (201/401) : ℚ) - probTargetFormula (201/401)| = 1/2
    ∧ prob_to_american (201/401) % 2 = 0 :=
  ⟨by decide, (prob_to_american_nearest (201/401)).2.1 (by decide)⟩

/-- C4 counterexample: the claim prescribes ties away from zero, which at
`p = 201/401` (formula value `-100.5`) yields `-101`; the source's Python 3
`round` yields `-100`. -/
theorem prob_to_american_ties_counterexample :
    prob_to_american (201/401) = -100 ∧ prob_to_american_claimed (201/401) = -101 := by
  constructor <;> decide

/- ===================== C5: american_to_prob ===================== -/

/-- C5. `american_to_prob` fails exactly on zero odds; negative odds map to
`|odds|/(|odds|+100)`, positive odds to `100/(odds+100)`; `-100 ↦ 1/2`. -/
theorem american_to_prob_spec (odds : ℚ) :
    ((∃ e, american_to_prob odds = Except.error e) ↔ odds = 0)
    ∧ (odds < 0 → american_to_prob odds = Except.ok (|odds| / (|odds| + 100)))
    ∧ (0 < odds → american_to_prob odds = Except.ok (100 / (odds + 100)))
    ∧ american_to_prob (-100) = Except.ok (1/2) := by
  refine ⟨⟨?_, ?_⟩, ?_, ?_, rfl⟩
  · intro ⟨e, he⟩
    by_contra h0
    unfold american_to_prob at he
    rw [if_neg h0] at he
    by_cases hneg : odds < 0 <;> simp [hneg] at he
  · intro h0
    exact ⟨"American odds cannot be 0", by unfold american_to_prob; rw [if_pos h0]⟩
  · intro hneg
    unfold american_to_prob
    rw [if_neg (ne_of_lt hneg), if_pos hneg, abs_of_neg hneg]
  · intro hpos
    unfold american_to_prob
    rw [if_neg (ne_of_gt hpos), if_neg (not_lt.mpr (le_of_lt hpos))]

/-- C5 witness: at `odds = -100` the negative-odds formula gives `1/2`. -/
theorem american_to_prob_spec_witness :
    american_to_prob (-100) = Except.ok (|(-100 : ℚ)| / (|(-100 : ℚ)| + 100)) :=
  (american_to_prob_spec (-100)).2.1 (by norm_num)

/- ===================== C6: round trip ===================== -/

lemma ratio_diff_bound (B x : ℚ) (hB : 100 ≤ B) (hx : 100 ≤ x)
    (hd : |B - x| ≤ 1/2) : |B/(B+100) - x/(x+100)| ≤ 1/800 := by
  have hB0 : (0:ℚ) < B + 100 := by linarith
  have hx0 : (0:ℚ) < x + 100 := by linarith
  have key : B/(B+100) - x/(x+100) = 100*(B-x)/((B+100)*(x+100)) := by
    field_simp
    ring
  rw [key, abs_div, abs_mul, abs_of_pos (mul_pos hB0 hx0),
    (by norm_num : |(100:ℚ)| = 100), div_le_iff (mul_pos hB0 hx0)]
  have h40 : (40000:ℚ) ≤ (B+100)*(x+100) := by nlinarith
  linarith

lemma ratio_diff_bound' (B x : ℚ) (hB : 100 ≤ B) (hx : 100 ≤ x)
    (hd : |B - x| ≤ 1/2) : |100/(B+100) - 100/(x+100)| ≤ 1/800 := by
  have hB0 : (0:ℚ) < B + 100 := by linarith
  have hx0 : (0:ℚ) < x + 100 := by linarith
  have e1 : (100:ℚ)/(B+100) = 1 - B/(B+100) := by
    field_simp
  have e2 : (100:ℚ)/(x+100) = 1 - x/(x+100) := by
    field_simp
  rw [e1, e2,
    (by ring : 1 - B/(B+100) - (1 - x/(x+100)) = -(B/(B+100) - x/(x+100))),
    abs_neg]
  exact ratio_diff_bound B x hB hx hd

/-- C6. For `p` in `(0,1)`, feeding `prob_to_american p` back through
`american_to_prob` succeeds and lands within `1/800` of the clamped `p` —
the tolerance induced by rounding the American odds to an integer. -/
theorem round_trip (p : ℚ) (h0 : 0 < p) (h1 : p < 1) :
    ∃ r, american_to_prob ((prob_to_american p : ℤ) : ℚ) = Except.ok r ∧
      |r - max (min p (999/1000)) (1/1000)| ≤ 1/800 := by
  simp only [prob_to_american]
  set q := max (min p (999/1000)) (1/1000) with hqdef
  have hq1 : (1:ℚ)/1000 ≤ q := le_max_right _ _
  have hq2 : q ≤ 999/1000 := max_le (le_trans (min_le_right _ _) (le_refl _)) (by norm_num)
  have h1q : (0:ℚ) < 1 - q := by linarith
  by_cases hc : (1:ℚ)/2 ≤ q
  · rw [if_pos hc]
    set x : ℚ := 100 * q / (1 - q) with hxdef
    have hxq : x / (x + 100) = q := by
      rw [hxdef]
      rw [div_add' _ _ _ (ne_of_gt h1q)]
      rw [div_div_div_comm, div_self (ne_of_gt h1q), div_one]
      rw [div_eq_iff (by nlinarith : 100 * q + 100 * (1 - q) ≠ 0)]
      ring
    have hx100 : (100:ℚ) ≤ x := by
      rw [hxdef, le_div_iff h1q]
      nlinarith
    have hrw : -100 * q / (1 - q) = -x := by
      rw [hxdef]; ring
    rw [hrw]
    have hdist := pyRound_dist_le (-x)
    set A := pyRound (-x) with hAdef
    have hAx : (A:ℚ) ≤ -x + 1/2 := by
      rw [abs_le] at hdist
      linarith [hdist.2]
    have hA100 : A ≤ -100 := by
      have : (A:ℚ) ≤ -199/2 := by linarith
      exact_mod_cast le_trans (Int.le_floor.mpr this) (by decide)
    have hAneg : ((A:ℤ):ℚ) < 0 := by
      have : ((A:ℤ):ℚ) ≤ -100 := by exact_mod_cast hA100
      linarith
    have hB100 : (100:ℚ) ≤ -(A:ℚ) := by
      have : ((A:ℤ):ℚ) ≤ -100 := by exact_mod_cast hA100
      linarith
    refine ⟨(-(A:ℚ)) / ((-(A:ℚ)) + 100), ?_, ?_⟩
    · unfold american_to_prob
      rw [if_neg (by exact ne_of_lt hAneg), if_pos hAneg]
    · have hd : |(-(A:ℚ)) - x| ≤ 1/2 := by
        rw [(by ring : (-(A:ℚ)) - x = -((A:ℚ) - (-x))), abs_neg]
        exact hdist
      rw [← hxq]
      exact ratio_diff_bound _ _ hB100 hx100 hd
  · rw [if_neg hc]
    push_neg at hc
    have hq0 : (0:ℚ) < q := by linarith
    set x : ℚ := 100 * (1 - q) / q with hxdef
    have hxq : 100 / (x + 100) = q := by
      rw [hxdef]
      rw [div_add' _ _ _ (ne_of_gt hq0)]
      rw [div_div_eq_mul_div]
      rw [div_eq_iff (by nlinarith : 100 * (1 - q) + 100 * q ≠ 0)]
      ring
    have hx100 : (100:ℚ) ≤ x := by
      rw [hxdef, le_div_iff hq0]
      nlinarith
    have hdist := pyRound_dist_le x
    set A := pyRound x with hAdef
    have hAx : x - 1/2 ≤ (A:ℚ) := by
      rw [abs_le] at hdist
      linarith [hdist.1]
    have hA100 : 100 ≤ A := by
      have h99 : (99:ℚ) < (A:ℚ) := by linarith
      have : (99:ℤ) < A := by exact_mod_cast h99
      omega
    have hApos : (0:ℚ) < ((A:ℤ):ℚ) := by
      have : (100:ℚ) ≤ ((A:ℤ):ℚ) := by exact_mod_cast hA100
      linarith
    refine ⟨100 / ((A:ℚ) + 100), ?_, ?_⟩
    · unfold american_to_prob
      rw [if_neg (by exact ne_of_gt hApos), if_neg (not_lt.mpr (le_of_lt hApos))]
    · have hB100 : (100:ℚ) ≤ (A:ℚ) := by exact_mod_cast hA100
      rw [← hxq]
      exact ratio_diff_bound' _ _ hB100 hx100 hdist

/-- C6 witness: the round trip at `p = 1/2`. -/
theorem round_trip_witness :
    ∃ r, american_to_prob ((prob_to_american (1/2) : ℤ) : ℚ) = Except.ok r ∧
      |r - max (min (1/2 : ℚ) (999/1000)) (1/1000)| ≤ 1/800 :=
  round_trip (1/2) (by norm_num) (by norm_num)

/- ===================== C7: price-format inference ===================== -/

/-- Embedding of the price branch of `process_anytime_for_game`
(src/main.py lines 443-451): a numeric price strictly between 1 and 10 is
read as decimal odds (probability `1/price`), anything else as American
odds rounded to an integer and fed to `american_to_prob`. Returns the pair
(American odds, book probability). -/
def bookOddsProb (raw_price : ℚ) : Except String (ℤ × ℚ) :=
  if 1 < raw_price ∧ raw_price < 10 then
    Except.ok (decimal_to_american raw_price, 1 / raw_price)
  else
    match american_to_prob ((pyRound raw_price : ℤ) : ℚ) with
    | Except.error e => Except.error e
    | Except.ok prob => Except.ok (pyRound raw_price, prob)

/-- C7. A price is classified as decimal odds exactly when it lies strictly
between 1 and 10, yielding probability `1/price`; otherwise it goes through
`american_to_prob`; prices `1.5`, `150`, `-150` yield probabilities
`2/3` (displayed as its 4-decimal rounding `0.6667`), `0.4` and `0.6`. -/
theorem price_format_inference (price : ℚ) :
    ((1 < price ∧ price < 10) →
        bookOddsProb price = Except.ok (decimal_to_american price, 1 / price))
    ∧ (¬(1 < price ∧ price < 10) →
        bookOddsProb price =
          (american_to_prob ((pyRound price : ℤ) : ℚ)).map
            (fun prob => (pyRound price, prob)))
    ∧ bookOddsProb (3/2) = Except.ok (decimal_to_american (3/2), 2/3)
    ∧ round4 (2/3) = 6667/10000
    ∧ bookOddsProb 150 = Except.ok (150, 2/5)
    ∧ bookOddsProb (-150) = Except.ok (-150, 3/5) := by
  refine ⟨?_, ?_, rfl, by decide, rfl, rfl⟩
  · intro h
    unfold bookOddsProb
    rw [if_pos h]
  · intro h
    unfold bookOddsProb
    rw [if_neg h]
    cases hE : american_to_prob ((pyRound price : ℤ) : ℚ) <;> simp [Except.map]

/-- C7 witness: the decimal branch applied at price `3/2`. -/
theorem price_format_inference_witness :
    bookOddsProb (3/2) = Except.ok (decimal_to_american (3/2), 1 / (3/2 : ℚ)) :=
  (price_format_inference (3/2)).1 (by norm_num)

/- ===================== Strings, Python style ===================== -/

/-- Python's `\s` whitespace class (ASCII part, all the blob contains). -/
def pyWS (c : Char) : Bool :=
  c = ' ' ∨ c = '\t' ∨ c = '\n' ∨ c = '\r' ∨ c = '\x0b' ∨ c = '\x0c'

/-- The character class `[A-Za-z .'\-]` of the team/name groups in the
patterns of `parse_top200_blob` (src/main.py lines 318-322). -/
def teamClassChar (c : Char) : Bool :=
  c.isAlpha ∨ c = ' ' ∨ c = '.' ∨ c = '\'' ∨ c = '-'

/-- Helper for `pyWords`: accumulate the current word (reversed). -/
def wordsAux : List Char → List Char → List (List Char)
  | [], acc => if acc = [] then [] else [acc.reverse]
  | c :: rest, acc =>
    if pyWS c then (if acc = [] then wordsAux rest [] else acc.reverse :: wordsAux rest [])
    else wordsAux rest (c :: acc)

/-- Python `str.split()` with no argument: split on whitespace runs,
dropping empty pieces. -/
def pyWords (cs : List Char) : List (List Char) := wordsAux cs []

/-- Join char-lists with single spaces, as `" ".join(...)`. -/
def joinSpace : List (List Char) → List Char
  | [] => []
  | [w] => w
  | w :: ws => w ++ ' ' :: joinSpace ws

/-- Python `" ".join(s.split())`: collapse whitespace runs to single
spaces and trim both ends. -/
def joinWS (s : String) : String := String.mk (joinSpace (pyWords s.data))

/-- Python `s.lower()` (ASCII suffices for the blob). -/
def pyLower (s : String) : String := String.mk (s.data.map Char.toLower)

/-- Python `s.upper()` (ASCII suffices for the team labels). -/
def pyUpper (s : String) : String := String.mk (s.data.map Char.toUpper)

/-- Python `s.replace(c, "")` for a single-character needle. -/
def removeChar (ch : Char) (s : String) : String :=
  String.mk (s.data.filter (fun c => c ≠ ch))

/-- Python `s.startswith(p)`. -/
def pyStartsWith (s p : String) : Bool := List.isPrefixOf p.data s.data

/-- Python `s.strip()`: drop whitespace from both ends. -/
def pyStrip (s : String) : String :=
  String.mk (((s.data.dropWhile pyWS).reverse.dropWhile pyWS).reverse)

/-- Embedding of `normalize_name` (src/main.py lines 300-302): lowercase,
strip periods and commas, collapse whitespace; apostrophes survive. -/
def normalize_name (s : String) : String :=
  joinWS (removeChar ',' (removeChar '.' (pyLower s)))

/- ===================== Python dicts as association lists ============== -/

/-- Python dict assignment `d[k] = v`: update in place if the key exists
(keeping its position), else append. -/
def dictInsert {α : Type} (d : List (String × α)) (k : String) (v : α) :
    List (String × α) :=
  match d with
  | [] => [(k, v)]
  | (k', v') :: rest =>
    if k' = k then (k, v) :: rest else (k', v') :: dictInsert rest k v

/-- Python `d.get(k)`: the binding of `k`, if any (keys are unique under
`dictInsert`, so the first binding is the binding). -/
def dictGet? {α : Type} (d : List (String × α)) (k : String) : Option α :=
  (d.find? (fun kv => kv.1 = k)).map (fun kv => kv.2)

/-- Python `k in d`. -/
def dictContains {α : Type} (d : List (String × α)) (k : String) : Bool :=
  (dictGet? d k).isSome
/-- Embedding of `TEAM_CITY_TO_ABBR` (src/main.py lines 34-44). -/
def TEAM_CITY_TO_ABBR : List (String × String) := [
  ("Arizona Cardinals", "ARI"), ("Atlanta Falcons", "ATL"), 
  ("Baltimore Ravens", "BAL"), ("Buffalo Bills", "BUF"), 
  ("Carolina Panthers", "CAR"), ("Chicago Bears", "CHI"), 
  ("Cincinnati Bengals", "CIN"), ("Cleveland Browns", "CLE"), 
  ("Dallas Cowboys", "DAL"), ("Denver Broncos", "DEN"), 
  ("Detroit Lions", "DET"), ("Green Bay Packers", "GB"), 
  ("Houston Texans", "HOU"), ("Indianapolis Colts", "IND"), 
  ("Jacksonville Jaguars", "JAX"), ("Kansas City Chiefs", "KC"), 
  ("Los Angeles Rams", "LAR"), ("Miami Dolphins", "MIA"), 
  ("Minnesota Vikings", "MIN"), ("New England Patriots", "NE"), 
  ("New Orleans Saints", "NO"), ("New York Giants", "NYG"), 
  ("New York Jets", "NYJ"), ("Las Vegas Raiders", "LV"), 
  ("Philadelphia Eagles", "PHI"), ("Pittsburgh Steelers", "PIT"), 
  ("Los Angeles Chargers", "LAC"), ("San Francisco 49ers", "SF"), 
  ("Seattle Seahawks", "SEA"), ("Tampa Bay Buccaneers", "TB"), 
  ("Tennessee Titans", "TEN"), ("Washington Commanders", "WAS")]

/-- Embedding of `TEAM_NICK_TO_ABBR` (src/main.py lines 45-52). -/
def TEAM_NICK_TO_ABBR : List (String × String) := [
  ("Cardinals", "ARI"), ("Falcons", "ATL"), ("Ravens", "BAL"), 
  ("Bills", "BUF"), ("Panthers", "CAR"), ("Bears", "CHI"), 
  ("Bengals", "CIN"), ("Browns", "CLE"), ("Cowboys", "DAL"), 
  ("Broncos", "DEN"), ("Lions", "DET"), ("Packers", "GB"), 
  ("Texans", "HOU"), ("Colts", "IND"), ("Jaguars", "JAX"), 
  ("Chiefs", "KC"), ("Rams", "LAR"), ("Dolphins", "MIA"), 
  ("Vikings", "MIN"), ("Patriots", "NE"), ("Saints", "NO"), 
  ("Giants", "NYG"), ("Jets", "NYJ"), ("Raiders", "LV"), ("Eagles", "PHI"), 
  ("Steelers", "PIT"), ("Chargers", "LAC"), ("49ers", "SF"), 
  ("Seahawks", "SEA"), ("Buccaneers", "TB"), ("Titans", "TEN"), 
  ("Commanders", "WAS")]
/-- The TOP200_BLOB reference text (src/main.py lines 58-259), as its
list of newline-separated segments: the `re.MULTILINE` patterns of
`parse_top200_blob` are anchored with `^...$`, so they match within single
segments; the first and last segments are empty. -/
def TOP200_BLOB_LINES : List String := [
    "",
    "WR Ja'Marr Chase, Bengals",
    "RB Bijan Robinson, Falcons",
    "RB Saquon Barkley, Eagles",
    "WR Justin Jefferson, Vikings",
    "RB Jahmyr Gibbs, Lions",
    "WR CeeDee Lamb, Cowboys",
    "WR Amon-Ra St. Brown, Lions",
    "WR Puka Nacua, Rams",
    "WR Malik Nabers, Giants",
    "RB Derrick Henry, Ravens",
    "WR Nico Collins, Texans",
    "RB De'Von Achane, Dolphins",
    "RB Ashton Jeanty, Raiders",
    "WR A.J. Brown, Eagles",
    "RB Christian McCaffrey, 49ers",
    "TE Brock Bowers, Raiders",
    "WR Brian Thomas Jr., Jaguars",
    "WR Jaxon Smith-Njigba, Seahawks",
    "RB Chase Brown, Bengals",
    "RB Jonathan Taylor, Colts",
    "WR Ladd McConkey, Chargers",
    "TE Trey McBride, Cardinals",
    "RB Kyren Williams, Rams",
    "RB Bucky Irving, Buccaneers",
    "QB Lamar Jackson, Ravens",
    "WR Drake London, Falcons",
    "QB Jalen Hurts, Eagles",
    "QB Jayden Daniels, Commanders",
    "RB Josh Jacobs, Packers",
    "QB Josh Allen, Bills",
    "WR Terry McLaurin, Commanders",
    "WR Tyreek Hill, Dolphins",
    "WR Tee Higgins, Bengals",
    "RB Breece Hall, Jets",
    "TE George Kittle, 49ers",
    "WR Mike Evans, Buccaneers",
    "RB James Cook, Bills",
    "WR Davante Adams, Rams",
    "WR Garrett Wilson, Jets",
    "RB Kenneth Walker III, Seahawks",
    "WR DJ Moore, Bears",
    "RB James Conner, Cardinals",
    "WR Marvin Harrison Jr., Cardinals",
    "WR DeVonta Smith, Eagles",
    "RB Alvin Kamara, Saints",
    "WR Courtland Sutton, Broncos",
    "WR DK Metcalf, Steelers",
    "WR Jameson Williams, Lions",
    "RB Chuba Hubbard, Panthers",
    "WR Zay Flowers, Ravens",
    "RB Omarion Hampton, Chargers",
    "RB Aaron Jones Sr., Vikings",
    "QB Joe Burrow, Bengals",
    "WR Xavier Worthy, Chiefs",
    "RB David Montgomery, Lions",
    "TE Sam LaPorta, Lions",
    "RB D'Andre Swift, Bears",
    "WR Chris Godwin, Buccaneers",
    "RB RJ Harvey, Broncos",
    "WR Jerry Jeudy, Browns",
    "QB Kyler Murray, Cardinals",
    "QB Patrick Mahomes, Chiefs",
    "WR Rome Odunze, Bears",
    "RB Tony Pollard, Titans",
    "RB Kaleb Johnson, Steelers",
    "TE T.J. Hockenson, Vikings",
    "RB Isiah Pacheco, Chiefs",
    "WR George Pickens, Cowboys",
    "WR Tetairoa McMillan, Panthers",
    "RB Tyrone Tracy Jr., Giants",
    "RB TreVeyon Henderson, Patriots",
    "WR Jaylen Waddle, Dolphins",
    "Rashee Rice, Chiefs",
    "TE Travis Kelce, Chiefs",
    "Joe Mixon, Texans",
    "RB Jaylen Warren, Steelers",
    "QB Baker Mayfield, Buccaneers",
    "WR Jakobi Meyers, Raiders",
    "WR Calvin Ridley, Titans",
    "QB Brock Purdy, 49ers",
    "RB Najee Harris, Chargers",
    "WR Chris Olave, Saints",
    "TE Evan Engram, Broncos",
    "RB Brian Robinson Jr., Commanders",
    "TE Mark Andrews, Ravens",
    "WR Ricky Pearsall, 49ers",
    "RB Travis Etienne Jr., Jaguars",
    "QB Dak Prescott, Cowboys",
    "WR Khalil Shakir, Bills",
    "QB Bo Nix, Broncos",
    "WR Travis Hunter, Jaguars",
    "RB Javonte Williams, Cowboys",
    "WR Jauan Jennings, 49ers",
    "TE David Njoku, Browns",
    "WR Cooper Kupp, Seahawks",
    "QB Jared Goff, Lions",
    "RB Jerome Ford, Browns",
    "RB Zach Charbonnet, Seahawks",
    "QB Justin Herbert, Chargers",
    "WR Jayden Reed, Packers",
    "RB Rhamondre Stevenson, Patriots",
    "QB C.J. Stroud, Texans",
    "QB Justin Fields, Jets",
    "TE Dalton Kincaid, Bills",
    "WR Stefon Diggs, Patriots",
    "QB J.J. McCarthy, Vikings",
    "WR Deebo Samuel Sr., Commanders",
    "WR Matthew Golden, Packers",
    "TE Tucker Kraft, Packers",
    "TE Jake Ferguson, Cowboys",
    "QB Caleb Williams, Bears",
    "RB Rachaad White, Buccaneers",
    "WR Emeka Egbuka, Buccaneers",
    "WR Jordan Addison, Vikings",
    "RB Tank Bigsby, Jaguars",
    "RB Jordan Mason, Vikings",
    "QB Drake Maye, Patriots",
    "RB Tyjae Spears, Titans",
    "WR Josh Downs, Colts",
    "WR Michael Pittman Jr., Colts",
    "TE Kyle Pitts, Falcons",
    "TE Hunter Henry, Patriots",
    "QB Jordan Love, Packers",
    "WR Darnell Mooney, Falcons",
    "RB Cam Skattebo, Giants",
    "RB Tyler Allgeier, Falcons",
    "WR Rashid Shaheed, Saints",
    "QB Bryce Young, Panthers",
    "RB J.K. Dobbins, Broncos",
    "RB Isaac Guerendo, 49ers",
    "WR Keon Coleman, Bills",
    "QB Trevor Lawrence, Jaguars",
    "RB Quinshon Judkins, Browns",
    "WR Wan'Dale Robinson, Giants",
    "WR Rashod Bateman, Ravens",
    "TE Tyler Warren, Colts",
    "QB Michael Penix Jr., Falcons",
    "WR Jayden Higgins, Texans",
    "TE Dallas Goedert, Eagles",
    "RB Bhayshul Tuten, Jaguars",
    "WR Luther Burden III, Bears",
    "RB Rico Dowdle, Panthers",
    "TE Jonnu Smith, Steelers",
    "RB Austin Ekeler, Commanders",
    "RB Ray Davis, Bills",
    "QB Tua Tagovailoa, Dolphins",
    "RB Jaylen Wright Dolphins",
    "WR Brandon Aiyik, 49ers",
    "WR Adam Thielen, Panthers",
    "DST Philadelphia Eagles",
    "RB Trey Benson, Cardinals",
    "QB Matthew Stafford, Rams",
    "WR Marvin Mims Jr., Broncos",
    "TE Isiah Likely, Ravens",
    "RB Jaydon Blue, Cowboys",
    "RB Braelon Allen, Jets",
    "TE Colston Loveland, Bears",
    "QB Aaron Rodgers, Steelers",
    "RB Roschon Johnson, Bears",
    "D/ST Baltimore Ravens",
    "RB Nick Chubb, Texans",
    "WR Tre' Harris, Chargers",
    "RB MarShawn Lloyd, Packers",
    "WR Christian Kirk, Texans",
    "WR Quentin Johnston, Chargers",
    "D/ST Denver Broncos",
    "WR Alec Pierce, Colts",
    "RB Blake Corum, Rams",
    "WR DeAndre Hopkins, Ravens",
    "D/ST Pittsburgh Steelers",
    "D/ST Houston Texans",
    "TE Cade Otton, Buccaneers",
    "WR Marquise Brown, Chiefs",
    "RB Justice Hill, Ravens",
    "WR Jalen McMillan, Buccaneers",
    "RB Chris Rodriguez Jr., Commanders",
    "WR Cedric Tillman, Browns",
    "QB Cam Ward, Titans",
    "WR Romeo Doubs, Packers",
    "TE Pat Freiermuth, Steelers",
    "RB Keaton Mitchell, Ravens",
    "D/ST Seattle Seahawks",
    "WR Kyle Williams, Patriots",
    "D/ST Minnesota Vikings",
    "D/ST Buffalo Bills",
    "K Brandon Aubrey, Cowboys",
    "D/ST Green Bay Packers",
    "RB Ty Johnson, Bills",
    "RB Dylan Sampson, Browns",
    "D/ST Detroit Lions",
    "D/ST Kansas City Chiefs",
    "RB Kyle Monangai, Bears",
    "K Cameron Dicker, Chargers",
    "K Jake Bates, Lions",
    "DST New York Jets",
    "WR Xavier Legette, Panthers",
    "TE Zach Ertz, Commanders",
    "K Chase McLaughlin, Buccaneers",
    "WR DeMario Douglas, Patriots",
    "WR Joshua Palmer, Bills",
    ""]

/-- Union `{**TEAM_CITY_TO_ABBR, **TEAM_NICK_TO_ABBR}` (src/main.py line
53); the two key sets are disjoint, so concatenation has unique keys. -/
def TEAM_NAME_TO_ABBR : List (String × String) :=
  TEAM_CITY_TO_ABBR ++ TEAM_NICK_TO_ABBR

/- ===================== Roster line matchers =====================

Each matcher embeds one `re.MULTILINE` pattern of `parse_top200_blob`
applied to a single newline-free segment.  The tail `,\s+([A-Za-z .'\-]+)\s*$`
resp. `\s+([A-Za-z .'\-]+)\s*$` is embedded as: at least one whitespace
character, then a maximal run of team-class characters (nonempty), then
only whitespace to the end.  A lazy name group means the leftmost split
whose tail matches wins, which the scanners below implement.  The one
divergence: a match whose team group consists of whitespace only (possible
because the class contains the space) is reported as no match here; such a
match normalizes to the empty team label, which is absent from
`TEAM_NAME_TO_ABBR`, so it never adds an entry, and the raw name it would
carry is never consulted again — the built table is unchanged. -/

/-- Match the part after a candidate comma against `\s+([A-Za-z .'\-]+)\s*$`,
returning the captured team label. -/
def tailTeam (cs : List Char) : Option String :=
  match cs with
  | [] => none
  | c :: _ =>
    if pyWS c then
      let rest := cs.dropWhile pyWS
      let team := rest.takeWhile teamClassChar
      let after := rest.dropWhile teamClassChar
      if team ≠ [] ∧ after.all pyWS then some (String.mk team) else none
    else none

/-- Scan for the first comma with a nonempty name before it and a valid
team tail after it (the lazy `(.+?),` of the comma patterns). -/
def findCommaSplit (seen : List Char) : List Char → Option (String × String)
  | [] => none
  | c :: rest =>
    if c = ',' then
      match tailTeam rest with
      | some team =>
        if seen ≠ [] then some (String.mk seen.reverse, team)
        else findCommaSplit (c :: seen) rest
      | none => findCommaSplit (c :: seen) rest
    else findCommaSplit (c :: seen) rest

/-- Scan for the first whitespace split with a nonempty name before it and
a valid team tail from it (the lazy `(.+?)\s+` of the no-comma pattern). -/
def findWSSplit (seen : List Char) : List Char → Option (String × String)
  | [] => none
  | c :: rest =>
    if pyWS c ∧ seen ≠ [] then
      match tailTeam (c :: rest) with
      | some team => some (String.mk seen.reverse, team)
      | none => findWSSplit (c :: seen) rest
    else findWSSplit (c :: seen) rest

/-- Leading `^\s*(QB|RB|WR|TE)\s+` of the two position patterns: returns
the remainder after the position token and its following whitespace run. -/
def dropPosTok (line : String) : Option (List Char) :=
  match line.data.dropWhile pyWS with
  | p1 :: p2 :: c :: rest =>
    if ([p1, p2] = ['Q','B'] ∨ [p1, p2] = ['R','B'] ∨ [p1, p2] = ['W','R'] ∨
        [p1, p2] = ['T','E']) ∧ pyWS c then
      some ((c :: rest).dropWhile pyWS)
    else none
  | _ => none

/-- Pattern `^\s*(QB|RB|WR|TE)\s+(.+?),\s+([A-Za-z .'\-]+)\s*$`
(src/main.py line 318), on one segment: (name, team) captures. -/
def matchPosComma (line : String) : Option (String × String) :=
  match dropPosTok line with
  | some cs => findCommaSplit [] cs
  | none => none

/-- Pattern `^\s*(QB|RB|WR|TE)\s+(.+?)\s+([A-Za-z .'\-]+)\s*$`
(src/main.py line 320), on one segment: (name, team) captures. -/
def matchPosNoComma (line : String) : Option (String × String) :=
  match dropPosTok line with
  | some cs => findWSSplit [] cs
  | none => none

/-- Pattern `^\s*([A-Za-z][A-Za-z .'\-]+?),\s+([A-Za-z .'\-]+)\s*$`
(src/main.py line 322), on one segment: (name, team) captures.  The name
class excludes the comma, so only the first comma can end the name; the
class check is applied to the captured name. -/
def matchNoPosComma (line : String) : Option (String × String) :=
  match findCommaSplit [] (line.data.dropWhile pyWS) with
  | some (n, t) =>
    match n.data with
    | [] => none
    | c :: rest =>
      if c.isAlpha ∧ rest ≠ [] ∧ rest.all teamClassChar then some (n, t) else none
  | none => none

/-- The entry the local `add` of `parse_top200_blob` (src/main.py lines
324-332) would record for a raw (name, team-label) capture: normalize
whitespace in both, drop labels starting with D/ST, DST or K, and resolve
the team label; `none` when `add` records nothing. -/
def candKV (nt : String × String) : Option (String × String) :=
  let n := joinWS nt.1
  let t := joinWS nt.2
  if pyStartsWith (pyUpper t) "D/ST" ∨ pyStartsWith (pyUpper t) "DST" ∨
     pyStartsWith (pyUpper t) "K " ∨ pyStartsWith (pyUpper t) "K" then none
  else
    match dictGet? TEAM_NAME_TO_ABBR t with
    | some abbr => some (n, abbr)
    | none => none

/-- The local `add` itself: record the candidate entry, if any (the same
filter-then-resolve computation, factored through `candKV`). -/
def addEntry (flat : List (String × String)) (name team_label : String) :
    List (String × String) :=
  match candKV (name, team_label) with
  | some kv => dictInsert flat kv.1 kv.2
  | none => flat

/-- One step of the first `findall` pass of `parse_top200_blob`:
unconditional `add` of every `pat_pos_comma` capture. -/
def parseStep1 (flat : List (String × String)) (ln : String) :
    List (String × String) :=
  match matchPosComma ln with
  | some nt => addEntry flat nt.1 nt.2
  | none => flat

/-- One step of the second pass: `add` a `pat_pos_nocomma` capture unless
its raw name is already a key. -/
def parseStep2 (flat : List (String × String)) (ln : String) :
    List (String × String) :=
  match matchPosNoComma ln with
  | some nt => if dictContains flat nt.1 then flat else addEntry flat nt.1 nt.2
  | none => flat

/-- One step of the third pass: `add` a `pat_nopos_comma` capture unless
its raw name is already a key. -/
def parseStep3 (flat : List (String × String)) (ln : String) :
    List (String × String) :=
  match matchNoPosComma ln with
  | some nt => if dictContains flat nt.1 then flat else addEntry flat nt.1 nt.2
  | none => flat

/-- Embedding of `parse_top200_blob` (src/main.py lines 305-344): the three
`findall` passes in order, the later two skipping raw names already
present. -/
def parse_top200_blob (ls : List String) : List (String × String) :=
  ls.foldl parseStep3 (ls.foldl parseStep2 (ls.foldl parseStep1 []))

/-- One step of the dict comprehension of `PLAYER_TEAM_MAP`: re-key by
`normalize_name` (later duplicates overwrite, first position kept). -/
def normStep (d : List (String × String)) (kv : String × String) :
    List (String × String) :=
  dictInsert d (normalize_name kv.1) kv.2

/-- Embedding of `PLAYER_TEAM_MAP` (src/main.py lines 346-348). -/
def PLAYER_TEAM_MAP : List (String × String) :=
  (parse_top200_blob TOP200_BLOB_LINES).foldl normStep []

/-- Embedding of `player_team_lookup` (src/main.py lines 393-394). -/
def player_team_lookup (player_name : String) : String :=
  (dictGet? PLAYER_TEAM_MAP (normalize_name player_name)).getD "TBD"


/- ===================== Dictionary lemmas ===================== -/

lemma dictGet?_insert_self {α : Type} (d : List (String × α)) (k : String) (v : α) :
    dictGet? (dictInsert d k v) k = some v := by
  induction d with
  | nil => simp [dictInsert, dictGet?, List.find?]
  | cons hd tl ih =>
    by_cases h : hd.1 = k
    · simp [dictInsert, h, dictGet?, List.find?]
    · simpa [dictInsert, h, dictGet?, List.find?] using ih

lemma dictGet?_insert_ne {α : Type} (d : List (String × α)) (k k' : String) (v' : α)
    (h : k ≠ k') : dictGet? (dictInsert d k' v') k = dictGet? d k := by
  induction d with
  | nil => simp [dictInsert, dictGet?, List.find?, Ne.symm h]
  | cons hd tl ih =>
    by_cases hh : hd.1 = k'
    · simp [dictInsert, hh, dictGet?, List.find?, Ne.symm h]
    · by_cases hk : hd.1 = k
      · simp [dictInsert, hh, dictGet?, List.find?, hk, h]
      · simpa [dictInsert, hh, dictGet?, List.find?, hk] using ih

lemma mem_dictInsert {α : Type} {kv : String × α} {d : List (String × α)}
    {k : String} {v : α} (h : kv ∈ dictInsert d k v) : kv ∈ d ∨ kv = (k, v) := by
  induction d with
  | nil =>
    simp only [dictInsert] at h
    exact Or.inr (List.mem_singleton.mp h)
  | cons hd tl ih =>
    simp only [dictInsert] at h
    by_cases hk : hd.1 = k
    · rw [if_pos hk] at h
      rcases List.mem_cons.mp h with h1 | h2
      · exact Or.inr h1
      · exact Or.inl (List.mem_cons_of_mem _ h2)
    · rw [if_neg hk] at h
      rcases List.mem_cons.mp h with h1 | h2
      · exact Or.inl (h1 ▸ List.mem_cons_self _ _)
      · rcases ih h2 with h3 | h3
        · exact Or.inl (List.mem_cons_of_mem _ h3)
        · exact Or.inr h3

lemma mem_of_dictGet? {α : Type} {d : List (String × α)} {k : String} {v : α}
    (h : dictGet? d k = some v) : (k, v) ∈ d := by
  unfold dictGet? at h
  cases hf : d.find? (fun kv => kv.1 = k) with
  | none => rw [hf] at h; simp at h
  | some kv' =>
    rw [hf] at h
    have h2 : kv'.2 = v := by simpa using h
    have hm := List.mem_of_find?_eq_some hf
    have hp : kv'.1 = k := by simpa using List.find?_some hf
    have heq : kv' = (k, v) := by
      cases kv'
      simp only at hp h2
      simp [hp, h2]
    rwa [heq] at hm

lemma dictContains_iff {α : Type} (d : List (String × α)) (k : String) :
    dictContains d k = true ↔ ∃ v, dictGet? d k = some v := by
  unfold dictContains
  rw [Option.isSome_iff_exists]

lemma dictContains_insert_mono {α : Type} (d : List (String × α)) (k k' : String)
    (v' : α) (h : dictContains d k = true) :
    dictContains (dictInsert d k' v') k = true := by
  by_cases hk : k = k'
  · subst hk
    exact (dictContains_iff _ _).mpr ⟨v', dictGet?_insert_self _ _ _⟩
  · rw [dictContains_iff, dictGet?_insert_ne _ _ _ _ hk]
    exact (dictContains_iff _ _).mp h

/- ===================== Fold lemmas ===================== -/

lemma foldl_mem_of {β : Type} (step : List (String × String) → β → List (String × String))
    (R : β → String × String → Prop)
    (hstep : ∀ d x kv, kv ∈ step d x → kv ∈ d ∨ R x kv)
    (Q : String × String → Prop)
    (ls : List β) (d : List (String × String))
    (hd : ∀ kv ∈ d, Q kv)
    (hls : ∀ x ∈ ls, ∀ kv, R x kv → Q kv) :
    ∀ kv ∈ ls.foldl step d, Q kv := by
  induction ls generalizing d with
  | nil => simpa using hd
  | cons x xs ih =>
    intro kv hkv
    rw [List.foldl_cons] at hkv
    refine ih (step d x) ?_ ?_ kv hkv
    · intro kv' hkv'
      rcases hstep d x kv' hkv' with h | h
      · exact hd kv' h
      · exact hls x (List.mem_cons_self _ _) kv' h
    · intro y hy kv' h
      exact hls y (List.mem_cons_of_mem _ hy) kv' h

lemma foldl_contains_mono {β : Type} (step : List (String × String) → β → List (String × String))
    (K : String)
    (hstep : ∀ d x, dictContains d K = true → dictContains (step d x) K = true)
    (ls : List β) (d : List (String × String))
    (hd : dictContains d K = true) :
    dictContains (ls.foldl step d) K = true := by
  induction ls generalizing d with
  | nil => simpa using hd
  | cons x xs ih =>
    rw [List.foldl_cons]
    exact ih (step d x) (hstep d x hd)

lemma foldl_contains_of_mem {β : Type} (step : List (String × String) → β → List (String × String))
    (K : String)
    (hmono : ∀ d x, dictContains d K = true → dictContains (step d x) K = true)
    (x0 : β) (hx0 : ∀ d, dictContains (step d x0) K = true)
    (ls : List β) (hmem : x0 ∈ ls) (d : List (String × String)) :
    dictContains (ls.foldl step d) K = true := by
  obtain ⟨s, t, rfl⟩ := List.append_of_mem hmem
  rw [List.foldl_append, List.foldl_cons]
  exact foldl_contains_mono step K hmono t _ (hx0 _)

/- ===================== Per-step lemmas ===================== -/

/-- The candidate entry each pass-1 line contributes. -/
def cand1 (ln : String) : Option (String × String) := (matchPosComma ln).bind candKV

/-- The candidate entry each pass-2 line contributes. -/
def cand2 (ln : String) : Option (String × String) := (matchPosNoComma ln).bind candKV

/-- The candidate entry each pass-3 line contributes. -/
def cand3 (ln : String) : Option (String × String) := (matchNoPosComma ln).bind candKV

lemma addEntry_mem {d : List (String × String)} {n t : String} {kv : String × String}
    (h : kv ∈ addEntry d n t) : kv ∈ d ∨ candKV (n, t) = some kv := by
  unfold addEntry at h
  cases hc : candKV (n, t) with
  | none => rw [hc] at h; exact Or.inl h
  | some kv' =>
    rw [hc] at h
    rcases mem_dictInsert h with h1 | h2
    · exact Or.inl h1
    · right
      rw [Prod.mk.eta] at h2
      rw [h2]

lemma parseStep1_mem (d : List (String × String)) (ln : String) (kv : String × String)
    (h : kv ∈ parseStep1 d ln) : kv ∈ d ∨ cand1 ln = some kv := by
  unfold parseStep1 at h
  cases hm : matchPosComma ln with
  | none => rw [hm] at h; exact Or.inl h
  | some nt =>
    rw [hm] at h
    rcases addEntry_mem h with h1 | h2
    · exact Or.inl h1
    · right
      unfold cand1
      rw [hm]
      exact h2

lemma parseStep2_mem (d : List (String × String)) (ln : String) (kv : String × String)
    (h : kv ∈ parseStep2 d ln) : kv ∈ d ∨ cand2 ln = some kv := by
  unfold parseStep2 at h
  cases hm : matchPosNoComma ln with
  | none => rw [hm] at h; exact Or.inl h
  | some nt =>
    simp only [hm] at h
    split at h
    · exact Or.inl h
    · rcases addEntry_mem h with h1 | h2
      · exact Or.inl h1
      · right
        unfold cand2
        rw [hm]
        exact h2

lemma parseStep3_mem (d : List (String × String)) (ln : String) (kv : String × String)
    (h : kv ∈ parseStep3 d ln) : kv ∈ d ∨ cand3 ln = some kv := by
  unfold parseStep3 at h
  cases hm : matchNoPosComma ln with
  | none => rw [hm] at h; exact Or.inl h
  | some nt =>
    simp only [hm] at h
    split at h
    · exact Or.inl h
    · rcases addEntry_mem h with h1 | h2
      · exact Or.inl h1
      · right
        unfold cand3
        rw [hm]
        exact h2

lemma normStep_mem (d : List (String × String)) (e : String × String) (kv : String × String)
    (h : kv ∈ normStep d e) : kv ∈ d ∨ kv = (normalize_name e.1, e.2) := by
  unfold normStep at h
  exact mem_dictInsert h

lemma addEntry_contains_mono (d : List (String × String)) (n t K : String)
    (h : dictContains d K = true) : dictContains (addEntry d n t) K = true := by
  unfold addEntry
  cases candKV (n, t) with
  | none => exact h
  | some kv => exact dictContains_insert_mono _ _ _ _ h

lemma parseStep1_contains_mono (d : List (String × String)) (ln : String) (K : String)
    (h : dictContains d K = true) : dictContains (parseStep1 d ln) K = true := by
  unfold parseStep1
  cases matchPosComma ln with
  | none => exact h
  | some nt => exact addEntry_contains_mono _ _ _ _ h

lemma parseStep2_contains_mono (d : List (String × String)) (ln : String) (K : String)
    (h : dictContains d K = true) : dictContains (parseStep2 d ln) K = true := by
  unfold parseStep2
  split
  · split
    · exact h
    · exact addEntry_contains_mono _ _ _ _ h
  · exact h

lemma parseStep3_contains_mono (d : List (String × String)) (ln : String) (K : String)
    (h : dictContains d K = true) : dictContains (parseStep3 d ln) K = true := by
  unfold parseStep3
  split
  · split
    · exact h
    · exact addEntry_contains_mono _ _ _ _ h
  · exact h

lemma normStep_contains_mono (d : List (String × String)) (e : String × String) (K : String)
    (h : dictContains d K = true) : dictContains (normStep d e) K = true := by
  unfold normStep
  exact dictContains_insert_mono _ _ _ _ h

/- ===================== Candidate checks over the blob ===================== -/

/-- The facts about candidate entries the claims need: any entry whose key
normalizes to `"ja'marr chase"` carries team `CIN`, any entry whose key
normalizes to `"k brandon aubrey"` carries team `DAL`, and no entry
normalizes to `"zzz test"`. -/
def rosterQ (kv : String × String) : Prop :=
  (normalize_name kv.1 ≠ "ja'marr chase" ∨ kv.2 = "CIN")
  ∧ (normalize_name kv.1 ≠ "k brandon aubrey" ∨ kv.2 = "DAL")
  ∧ normalize_name kv.1 ≠ "zzz test"

instance rosterQ_decidable : DecidablePred rosterQ := by
  intro kv
  unfold rosterQ
  infer_instance

/-- All entries of an optional candidate satisfy a predicate. -/
def optionAll (p : String × String → Prop) : Option (String × String) → Prop
  | some kv => p kv
  | none => True

instance optionAll_decidable (p : String × String → Prop) [DecidablePred p] :
    ∀ o, Decidable (optionAll p o)
  | some kv => inferInstanceAs (Decidable (p kv))
  | none => Decidable.isTrue trivial

lemma optionAll_some {p : String × String → Prop} {o : Option (String × String)}
    {kv : String × String} (h : optionAll p o) (he : o = some kv) : p kv := by
  subst he
  exact h

set_option maxRecDepth 4000 in
lemma cand1_all : ∀ ln ∈ TOP200_BLOB_LINES, optionAll rosterQ (cand1 ln) := by
  decide

set_option maxRecDepth 4000 in
lemma cand2_all : ∀ ln ∈ TOP200_BLOB_LINES, optionAll rosterQ (cand2 ln) := by
  decide

set_option maxRecDepth 4000 in
lemma cand3_all : ∀ ln ∈ TOP200_BLOB_LINES, optionAll rosterQ (cand3 ln) := by
  decide

/- ===================== Presence of the two key lines ===================== -/

lemma chase_mem : "WR Ja'Marr Chase, Bengals" ∈ TOP200_BLOB_LINES := by decide

lemma chase_step (d : List (String × String)) :
    parseStep1 d "WR Ja'Marr Chase, Bengals" = dictInsert d "Ja'Marr Chase" "CIN" := by
  unfold parseStep1 addEntry
  simp only [show matchPosComma "WR Ja'Marr Chase, Bengals" =
      some ("Ja'Marr Chase", "Bengals") from by decide,
    show candKV ("Ja'Marr Chase", "Bengals") =
      some ("Ja'Marr Chase", "CIN") from by decide]

lemma aubrey_mem : "K Brandon Aubrey, Cowboys" ∈ TOP200_BLOB_LINES := by decide

lemma aubrey_step (d : List (String × String)) :
    dictContains (parseStep3 d "K Brandon Aubrey, Cowboys") "K Brandon Aubrey" = true := by
  unfold parseStep3 addEntry
  simp only [show matchNoPosComma "K Brandon Aubrey, Cowboys" =
      some ("K Brandon Aubrey", "Cowboys") from by decide,
    show candKV ("K Brandon Aubrey", "Cowboys") =
      some ("K Brandon Aubrey", "DAL") from by decide]
  by_cases hg : dictContains d "K Brandon Aubrey" = true
  · rw [if_pos hg]
    exact hg
  · rw [if_neg hg]
    exact (dictContains_iff _ _).mpr ⟨"DAL", dictGet?_insert_self _ _ _⟩

/- ===================== The parsed table and the final map ===================== -/

lemma parse_entries :
    ∀ kv ∈ parse_top200_blob TOP200_BLOB_LINES, rosterQ kv := by
  unfold parse_top200_blob
  refine foldl_mem_of parseStep3 (fun ln kv => cand3 ln = some kv) parseStep3_mem
    rosterQ _ _ ?_ ?_
  · refine foldl_mem_of parseStep2 (fun ln kv => cand2 ln = some kv) parseStep2_mem
      rosterQ _ _ ?_ ?_
    · refine foldl_mem_of parseStep1 (fun ln kv => cand1 ln = some kv) parseStep1_mem
        rosterQ _ _ ?_ ?_
      · intro kv hkv
        simp at hkv
      · intro x hx kv h
        exact optionAll_some (cand1_all x hx) h
    · intro x hx kv h
      exact optionAll_some (cand2_all x hx) h
  · intro x hx kv h
    exact optionAll_some (cand3_all x hx) h

lemma parse_contains_chase :
    dictContains (parse_top200_blob TOP200_BLOB_LINES) "Ja'Marr Chase" = true := by
  unfold parse_top200_blob
  apply foldl_contains_mono parseStep3 _ (fun d x => parseStep3_contains_mono d x _)
  apply foldl_contains_mono parseStep2 _ (fun d x => parseStep2_contains_mono d x _)
  refine foldl_contains_of_mem parseStep1 _ (fun d x => parseStep1_contains_mono d x _)
    "WR Ja'Marr Chase, Bengals" ?_ _ chase_mem _
  intro d
  rw [chase_step]
  exact (dictContains_iff _ _).mpr ⟨"CIN", dictGet?_insert_self _ _ _⟩

lemma parse_contains_aubrey :
    dictContains (parse_top200_blob TOP200_BLOB_LINES) "K Brandon Aubrey" = true := by
  unfold parse_top200_blob
  exact foldl_contains_of_mem parseStep3 _ (fun d x => parseStep3_contains_mono d x _)
    "K Brandon Aubrey, Cowboys" aubrey_step _ aubrey_mem _

lemma map_entries :
    ∀ kv ∈ PLAYER_TEAM_MAP,
      (kv.1 = "ja'marr chase" → kv.2 = "CIN")
      ∧ (kv.1 = "k brandon aubrey" → kv.2 = "DAL")
      ∧ kv.1 ≠ "zzz test" := by
  unfold PLAYER_TEAM_MAP
  refine foldl_mem_of normStep (fun e kv => kv = (normalize_name e.1, e.2)) normStep_mem
    _ _ _ ?_ ?_
  · intro kv hkv
    simp at hkv
  · intro e he kv hkv
    subst hkv
    obtain ⟨q1, q2, q3⟩ := parse_entries e he
    refine ⟨?_, ?_, ?_⟩
    · intro h1
      rcases q1 with hq | hq
      · exact absurd h1 hq
      · exact hq
    · intro h2
      rcases q2 with hq | hq
      · exact absurd h2 hq
      · exact hq
    · exact q3

lemma map_contains_key (K : String) (v : String)
    (hmem : (K, v) ∈ parse_top200_blob TOP200_BLOB_LINES) :
    dictContains PLAYER_TEAM_MAP (normalize_name K) = true := by
  unfold PLAYER_TEAM_MAP
  refine foldl_contains_of_mem normStep _ (fun d x => normStep_contains_mono d x _)
    (K, v) ?_ _ hmem _
  intro d
  unfold normStep
  exact (dictContains_iff _ _).mpr ⟨v, dictGet?_insert_self _ _ _⟩

lemma map_get_chase : dictGet? PLAYER_TEAM_MAP "ja'marr chase" = some "CIN" := by
  obtain ⟨v0, hv0⟩ := (dictContains_iff _ _).mp parse_contains_chase
  have hmem := map_contains_key _ _ (mem_of_dictGet? hv0)
  rw [show normalize_name "Ja'Marr Chase" = "ja'marr chase" from by decide] at hmem
  obtain ⟨v, hv⟩ := (dictContains_iff _ _).mp hmem
  have hq := (map_entries _ (mem_of_dictGet? hv)).1 rfl
  rw [hv]
  exact congrArg some hq

lemma map_get_aubrey : dictGet? PLAYER_TEAM_MAP "k brandon aubrey" = some "DAL" := by
  obtain ⟨v0, hv0⟩ := (dictContains_iff _ _).mp parse_contains_aubrey
  have hmem := map_contains_key _ _ (mem_of_dictGet? hv0)
  rw [show normalize_name "K Brandon Aubrey" = "k brandon aubrey" from by decide] at hmem
  obtain ⟨v, hv⟩ := (dictContains_iff _ _).mp hmem
  have hq := (map_entries _ (mem_of_dictGet? hv)).2.1 rfl
  rw [hv]
  exact congrArg some hq

lemma map_get_zzz : dictGet? PLAYER_TEAM_MAP "zzz test" = none := by
  cases hg : dictGet? PLAYER_TEAM_MAP "zzz test" with
  | none => rfl
  | some v =>
    exact absurd rfl (map_entries _ (mem_of_dictGet? hg)).2.2

lemma lookup_chase : player_team_lookup "Ja'Marr Chase" = "CIN" := by
  unfold player_team_lookup
  rw [show normalize_name "Ja'Marr Chase" = "ja'marr chase" from by decide, map_get_chase]
  rfl

lemma lookup_zzz : player_team_lookup "Zzz Test" = "TBD" := by
  unfold player_team_lookup
  rw [show normalize_name "Zzz Test" = "zzz test" from by decide, map_get_zzz]
  rfl

/- ===================== C8: roster parsing ===================== -/

/-- C8 evidence. Parsing the reference blob maps `"WR Ja'Marr Chase,
Bengals"` to normalized key `"ja'marr chase"` → `CIN`, and the segment
`"D/ST Baltimore Ravens"` matches no pattern, hence yields no entry; but
the kicker segment `"K Brandon Aubrey, Cowboys"` — with a comma — is
captured by the no-position pattern with name `"K Brandon Aubrey"`, whose
team label `"Cowboys"` passes the label filter, so the table does contain
the kicker entry `"k brandon aubrey" → DAL`, although the function's own
docstring promises to ignore K lines. -/
theorem roster_kicker_entry_bug :
    player_team_lookup "Ja'Marr Chase" = "CIN"
    ∧ matchPosComma "D/ST Baltimore Ravens" = none
    ∧ matchPosNoComma "D/ST Baltimore Ravens" = none
    ∧ matchNoPosComma "D/ST Baltimore Ravens" = none
    ∧ matchNoPosComma "K Brandon Aubrey, Cowboys" =
        some ("K Brandon Aubrey", "Cowboys")
    ∧ dictGet? PLAYER_TEAM_MAP "k brandon aubrey" = some "DAL" :=
  ⟨lookup_chase, by decide, by decide, by decide, by decide, map_get_aubrey⟩

/- ===================== Market data model ===================== -/

/-- One outcome of the `player_anytime_td` market payload: selection name,
free-text player description, raw price (absent models JSON null). -/
structure OutcomeIn where
  name : String
  description : Option String
  price : Option ℚ
deriving DecidableEq

/-- One market of a bookmaker's payload. -/
structure Market where
  key : String
  outcomes : List OutcomeIn
deriving DecidableEq

/-- One bookmaker of the odds payload. -/
structure Bookmaker where
  key : String
  markets : List Market
deriving DecidableEq

/-- The decoded per-event odds payload. -/
structure MarketResponse where
  bookmakers : List Bookmaker
deriving DecidableEq

/-- One fixture of the events payload. -/
structure Game where
  id : Option String
  home_team : Option String
  away_team : Option String
  commence_time : Option String
deriving DecidableEq

/-- Embedding of `BOOKMAKER_PRIORITY` (src/main.py lines 23-26). -/
def BOOKMAKER_PRIORITY : List String :=
  ["fanduel", "betmgm", "caesars", "betrivers", "williamhill_us",
   "draftkings", "fanatics", "windcreek", "espnbet", "ballybet"]

/-- The bookmaker selection of `process_anytime_for_game` (src/main.py
lines 414-421): scan the response's bookmakers in response order and keep
the first whose key belongs to `BOOKMAKER_PRIORITY`. -/
def chooseBookmaker (bks : List Bookmaker) : Option Bookmaker :=
  bks.find? (fun bk => BOOKMAKER_PRIORITY.contains bk.key)

/-- The selection rule as the claim words it: iterate the preference list
in its order and take the first listed name present in the response.
Modelled from the spec, for comparison with `chooseBookmaker`. -/
def chooseBookmakerSpec (bks : List Bookmaker) : Option Bookmaker :=
  BOOKMAKER_PRIORITY.findSome? (fun nm => bks.find? (fun bk => bk.key = nm))

/-- The `book` sub-record of an output record (src/main.py lines 482-486). -/
structure BookInfo where
  odds_american : ℤ
  implied_probability : ℚ
  implied_probability_pct : ℚ
deriving DecidableEq

/-- The `adjusted` sub-record (src/main.py lines 487-492). -/
structure AdjInfo where
  team_lift : ℚ
  probability : ℚ
  probability_pct : ℚ
  fair_odds_american : ℤ
deriving DecidableEq

/-- The `edge` sub-record (src/main.py lines 493-497). -/
structure EdgeInfo where
  probability_points : ℚ
  probability_points_pct : ℚ
  relative_uplift_pct : Option ℚ
deriving DecidableEq

/-- One output record of `process_anytime_for_game` (src/main.py lines
476-498). -/
structure PlayerRec where
  player_name : String
  team : String
  game : String
  commence_time : Option String
  bookmaker : String
  book : BookInfo
  adjusted : AdjInfo
  edge : EdgeInfo
deriving DecidableEq

/-- The multiplier selection of src/main.py lines 456-470: home boost when
the player's team equals the home abbreviation, away boost when it equals
the away abbreviation, and otherwise the `UNKNOWN_TEAM_MODE` policy string
decides: average, home, away, or no boost (the source's final branch
computes `clamp_prob(book_prob)`, identical to multiplier 1). -/
def liftSelection (mode pteam home_abbr away_abbr : String)
    (lift_home lift_away : ℚ) : ℚ :=
  if pteam = home_abbr then lift_home
  else if pteam = away_abbr then lift_away
  else if mode = "average" then (lift_home + lift_away) / 2
  else if mode = "home" then lift_home
  else if mode = "away" then lift_away
  else 1

/-- Per-outcome processing of `process_anytime_for_game` (src/main.py
lines 435-498): skip non-Yes selections, blank player names and null
prices (the source tests the name and the price in one `if`; the order of
the two skip tests is immaterial); convert the price via `bookOddsProb` (a
raised `InvalidOdds` aborts the whole game's processing), resolve the
team, pick the multiplier, clamp, and build the record with its rounded
display fields. -/
def processOutcome (mode home_abbr away_abbr : String)
    (commence_time : Option String) (bkKey : String)
    (lift_home lift_away : ℚ) (o : OutcomeIn) :
    Except String (Option PlayerRec) :=
  if o.name ≠ "Yes" then Except.ok none
  else
    let player_name := pyStrip (o.description.getD "")
    match o.price with
    | none => Except.ok none
    | some raw_price =>
      if player_name = "" then Except.ok none
      else
        match bookOddsProb raw_price with
        | Except.error e => Except.error e
        | Except.ok op =>
          let book_prob := op.2
          let pteam := player_team_lookup player_name
          let used_lift := liftSelection mode pteam home_abbr away_abbr lift_home lift_away
          let adj_prob := clamp_prob (book_prob * used_lift)
          let edge_pp := adj_prob - book_prob
          let edge_rel : Option ℚ :=
            if 0 < book_prob then some (edge_pp / book_prob * 100) else none
          Except.ok (some {
            player_name := player_name
            team := pteam
            game := away_abbr ++ " @ " ++ home_abbr
            commence_time := commence_time
            bookmaker := bkKey
            book := ⟨op.1, round4 book_prob, round1 (book_prob * 100)⟩
            adjusted := ⟨round4 used_lift, round4 adj_prob, round1 (adj_prob * 100),
              prob_to_american adj_prob⟩
            edge := ⟨round4 edge_pp, round2 (edge_pp * 100), edge_rel.map round2⟩ })

/-- The outcome loop of src/main.py lines 435-498: skips continue, a raise
aborts the game, results are appended in order. -/
def processOutcomes (mode home_abbr away_abbr : String)
    (commence_time : Option String) (bkKey : String)
    (lift_home lift_away : ℚ) : List OutcomeIn → Except String (List PlayerRec)
  | [] => Except.ok []
  | o :: rest =>
    match processOutcome mode home_abbr away_abbr commence_time bkKey lift_home lift_away o with
    | Except.error e => Except.error e
    | Except.ok none =>
      processOutcomes mode home_abbr away_abbr commence_time bkKey lift_home lift_away rest
    | Except.ok (some r) =>
      match processOutcomes mode home_abbr away_abbr commence_time bkKey lift_home lift_away rest with
      | Except.error e => Except.error e
      | Except.ok rs => Except.ok (r :: rs)

/-- Embedding of `process_anytime_for_game` (src/main.py lines 396-500).
The market fetch is passed in: `error` models a raised transport
exception, `ok none` the source's `None` for a non-OK response, and
`ok (some m)` a decoded payload. `UNKNOWN_TEAM_MODE` is the `mode`
parameter (an environment variable in the source). -/
def process_anytime_for_game
    (fetchMarket : String → Except String (Option MarketResponse))
    (mode : String) (game : Game) (team_boosts : List (String × ℚ)) :
    Except String (List PlayerRec) :=
  match game.id with
  | none => Except.ok []
  | some gid =>
    if gid = "" then Except.ok []
    else
      let home_abbr := match game.home_team with
        | none => "HOME"
        | some h =>
          match dictGet? TEAM_CITY_TO_ABBR h with
          | some a => a
          | none => if h = "" then "HOME" else h
      let away_abbr := match game.away_team with
        | none => "AWAY"
        | some a =>
          match dictGet? TEAM_CITY_TO_ABBR a with
          | some ab => ab
          | none => if a = "" then "AWAY" else a
      match fetchMarket gid with
      | Except.error e => Except.error e
      | Except.ok none => Except.ok []
      | Except.ok (some market) =>
        match chooseBookmaker market.bookmakers with
        | none => Except.ok []
        | some chosen_book =>
          match chosen_book.markets.find? (fun m => m.key = "player_anytime_td") with
          | none => Except.ok []
          | some patd =>
            let lift_home := (dictGet? team_boosts home_abbr).getD 1
            let lift_away := (dictGet? team_boosts away_abbr).getD 1
            processOutcomes mode home_abbr away_abbr game.commence_time
              chosen_book.key lift_home lift_away patd.outcomes

/- ===================== Characterizing a produced record ===================== -/

lemma processOutcome_spec (mode home away : String) (ct : Option String)
    (bk : String) (lh la : ℚ) (o : OutcomeIn) (rec : PlayerRec)
    (h : processOutcome mode home away ct bk lh la o = Except.ok (some rec)) :
    ∃ raw_price book_odds book_prob,
      o.price = some raw_price
      ∧ bookOddsProb raw_price = Except.ok (book_odds, book_prob)
      ∧ rec =
        (let player_name := pyStrip (o.description.getD "")
         let pteam := player_team_lookup player_name
         let used_lift := liftSelection mode pteam home away lh la
         let adj_prob := clamp_prob (book_prob * used_lift)
         let edge_pp := adj_prob - book_prob
         let edge_rel : Option ℚ :=
           if 0 < book_prob then some (edge_pp / book_prob * 100) else none
         { player_name := player_name
           team := pteam
           game := away ++ " @ " ++ home
           commence_time := ct
           bookmaker := bk
           book := ⟨book_odds, round4 book_prob, round1 (book_prob * 100)⟩
           adjusted := ⟨round4 used_lift, round4 adj_prob, round1 (adj_prob * 100),
             prob_to_american adj_prob⟩
           edge := ⟨round4 edge_pp, round2 (edge_pp * 100), edge_rel.map round2⟩ }) := by
  unfold processOutcome at h
  split at h
  · exact absurd h (by simp)
  · cases hp : o.price with
    | none =>
      simp only [hp] at h
      exact absurd h (by simp)
    | some raw_price =>
      simp only [hp] at h
      split at h
      · exact absurd h (by simp)
      · cases hb : bookOddsProb raw_price with
        | error e =>
          simp only [hb] at h
          exact absurd h (by simp)
        | ok op =>
          simp only [hb, Except.ok.injEq, Option.some.injEq] at h
          exact ⟨raw_price, op.1, op.2, rfl, by rw [hb], h.symm⟩

/- ===================== Deciding Except equalities ===================== -/

instance exceptDecidableEq {ε α : Type} [DecidableEq ε] [DecidableEq α] :
    DecidableEq (Except ε α)
  | Except.error e1, Except.error e2 =>
    if h : e1 = e2 then Decidable.isTrue (by rw [h]) else Decidable.isFalse (by simp [h])
  | Except.error _, Except.ok _ => Decidable.isFalse (by simp)
  | Except.ok _, Except.error _ => Decidable.isFalse (by simp)
  | Except.ok a1, Except.ok a2 =>
    if h : a1 = a2 then Decidable.isTrue (by rw [h]) else Decidable.isFalse (by simp [h])

/- ===================== C3: the record invariant ===================== -/

/-- C3 (amended). Every record the adjustment engine produces stores
4-decimal roundings: there are unrounded probabilities `bookP` (the
book-implied probability) and `adjP` (the clamped adjusted probability)
with `book.implied_probability = round4 bookP`,
`adjusted.probability = round4 adjP`, the fair odds computed from the
*unrounded* `adjP` (`fair_odds = prob_to_american adjP`), and
`edge.probability_points = round4 (adjP - bookP)` — the rounding of the
difference of the unrounded values, not the difference of the stored
rounded fields. -/
theorem adjusted_outcome_invariant (mode home away : String) (ct : Option String)
    (bk : String) (lh la : ℚ) (o : OutcomeIn) (rec : PlayerRec)
    (h : processOutcome mode home away ct bk lh la o = Except.ok (some rec)) :
    ∃ bookP adjP : ℚ,
      rec.book.implied_probability = round4 bookP
      ∧ rec.adjusted.probability = round4 adjP
      ∧ rec.adjusted.fair_odds_american = prob_to_american adjP
      ∧ rec.edge.probability_points = round4 (adjP - bookP) := by
  obtain ⟨rp, bo, bp, hp, hb, hrec⟩ := processOutcome_spec mode home away ct bk lh la o rec h
  subst hrec
  exact ⟨bp, clamp_prob (bp * liftSelection mode
    (player_team_lookup (pyStrip (o.description.getD ""))) home away lh la),
    rfl, rfl, rfl, rfl⟩

/-- The record the engine computes on a price of `25000/23749` (decimal
odds, implied probability exactly `0.94996`) for an unresolvable player
under the `none` policy. -/
def c3rec : PlayerRec :=
  { player_name := "Zzz Test"
    team := "TBD"
    game := "AA @ HH"
    commence_time := none
    bookmaker := "fanduel"
    book := ⟨-1898, 19/20, 95⟩
    adjusted := ⟨1, 19/20, 95, -1898⟩
    edge := ⟨0, 0, some 0⟩ }

lemma c3_run :
    processOutcome "none" "HH" "AA" none "fanduel" 1 1
      ⟨"Yes", some "Zzz Test", some (25000/23749)⟩ = Except.ok (some c3rec) := by
  unfold processOutcome
  simp only [show pyStrip ((some "Zzz Test").getD "") = "Zzz Test" from by decide,
    show bookOddsProb (25000/23749) = Except.ok ((-1898 : ℤ), 23749/25000) from by decide,
    lookup_zzz]
  decide

/-- C3 counterexample: on that record the stored `fair_odds` (`-1898`,
computed from the unrounded adjusted probability `0.94996`) differs from
the probability-to-American transform of the stored, rounded
`adjusted.probability` field (`0.95 ↦ -1900`), so the invariant does not
hold over the stored, rounded field values. -/
theorem adjusted_outcome_invariant_counterexample :
    ∃ rec, processOutcome "none" "HH" "AA" none "fanduel" 1 1
        ⟨"Yes", some "Zzz Test", some (25000/23749)⟩ = Except.ok (some rec)
      ∧ rec.adjusted.fair_odds_american ≠ prob_to_american rec.adjusted.probability :=
  ⟨c3rec, c3_run, by decide⟩

/-- C3 witness: the amended invariant at the concrete record above. -/
theorem adjusted_outcome_invariant_witness :
    ∃ bookP adjP : ℚ,
      c3rec.book.implied_probability = round4 bookP
      ∧ c3rec.adjusted.probability = round4 adjP
      ∧ c3rec.adjusted.fair_odds_american = prob_to_american adjP
      ∧ c3rec.edge.probability_points = round4 (adjP - bookP) :=
  adjusted_outcome_invariant "none" "HH" "AA" none "fanduel" 1 1
    ⟨"Yes", some "Zzz Test", some (25000/23749)⟩ c3rec c3_run

/- ===================== C1: bookmaker selection ===================== -/

lemma find?_split {α : Type} (p : α → Bool) (l : List α) (a : α)
    (h : l.find? p = some a) :
    ∃ l1 l2, l = l1 ++ a :: l2 ∧ p a = true ∧ ∀ b ∈ l1, p b = false := by
  induction l with
  | nil => simp at h
  | cons x xs ih =>
    by_cases hx : p x = true
    · rw [List.find?_cons_of_pos _ hx] at h
      obtain rfl : x = a := by simpa using h
      exact ⟨[], xs, rfl, hx, by simp⟩
    · rw [List.find?_cons_of_neg _ (by simpa using hx)] at h
      obtain ⟨l1, l2, rfl, hpa, hall⟩ := ih h
      refine ⟨x :: l1, l2, rfl, hpa, ?_⟩
      intro b hb
      rcases List.mem_cons.mp hb with rfl | hb
      · simpa using hx
      · exact hall b hb

/-- C1 (amended). The selected bookmaker is the first bookmaker of the
response whose key belongs to `BOOKMAKER_PRIORITY` — the response's order
decides, the priority list acts only as an unordered whitelist; when no
response bookmaker is whitelisted, the fixture contributes an empty
outcome list, not an error. -/
theorem bookmaker_selection (bks : List Bookmaker) :
    (∀ bk, chooseBookmaker bks = some bk →
      ∃ l1 l2, bks = l1 ++ bk :: l2
        ∧ BOOKMAKER_PRIORITY.contains bk.key = true
        ∧ ∀ b ∈ l1, BOOKMAKER_PRIORITY.contains b.key = false)
    ∧ ((∀ b ∈ bks, BOOKMAKER_PRIORITY.contains b.key = false) →
        chooseBookmaker bks = none)
    ∧ (∀ (fetchMarket : String → Except String (Option MarketResponse))
        (mode : String) (game : Game) (boosts : List (String × ℚ))
        (gid : String) (m : MarketResponse),
        game.id = some gid → gid ≠ "" →
        fetchMarket gid = Except.ok (some m) →
        chooseBookmaker m.bookmakers = none →
        process_anytime_for_game fetchMarket mode game boosts = Except.ok []) := by
  refine ⟨?_, ?_, ?_⟩
  · intro bk h
    exact find?_split _ bks bk h
  · intro h
    unfold chooseBookmaker
    rw [List.find?_eq_none]
    intro b hb
    simpa using h b hb
  · intro fetchMarket mode game boosts gid m hid hgid hfetch hnone
    unfold process_anytime_for_game
    simp only [hid, hfetch, hnone]
    rw [if_neg hgid]

/-- C1 counterexample: a response listing betmgm before fanduel. The code
selects betmgm (first in the response belonging to the priority list); the
claim's rule — first entry of the preference list present in the response —
selects fanduel, which heads the preference list. -/
theorem bookmaker_selection_counterexample :
    chooseBookmaker [⟨"betmgm", []⟩, ⟨"fanduel", []⟩] = some ⟨"betmgm", []⟩
    ∧ chooseBookmakerSpec [⟨"betmgm", []⟩, ⟨"fanduel", []⟩] = some ⟨"fanduel", []⟩
    ∧ chooseBookmaker [⟨"betmgm", []⟩, ⟨"fanduel", []⟩]
        ≠ chooseBookmakerSpec [⟨"betmgm", []⟩, ⟨"fanduel", []⟩] :=
  ⟨by decide, by decide, by decide⟩

/-- C1 witness: a response with no whitelisted bookmaker yields `none` and
the fixture contributes an empty outcome list. -/
theorem bookmaker_selection_witness :
    chooseBookmaker [(⟨"zzz", []⟩ : Bookmaker)] = none
    ∧ process_anytime_for_game (fun _ => Except.ok (some ⟨[⟨"zzz", []⟩]⟩)) "none"
        ⟨some "g1", none, none, none⟩ [] = Except.ok [] :=
  ⟨(bookmaker_selection [⟨"zzz", []⟩]).2.1 (by decide),
   (bookmaker_selection [⟨"zzz", []⟩]).2.2 (fun _ => Except.ok (some ⟨[⟨"zzz", []⟩]⟩))
     "none" ⟨some "g1", none, none, none⟩ [] "g1" ⟨[⟨"zzz", []⟩]⟩ rfl (by decide) rfl
     (by decide)⟩

/- ===================== C9: the multiplier policy ===================== -/

/-- C9. The multiplier the engine applies is the home boost when the
player's resolved team equals the home side, the away boost when it equals
the away side, and under the `average` unknown-team policy the arithmetic
mean of the fixture's two boosts when it resolves to neither; the stored
`team_lift` field of every produced record is the 4-decimal rounding of
exactly this selected multiplier. -/
theorem multiplier_policy (mode pteam home away : String) (lh la : ℚ) :
    (pteam = home → liftSelection mode pteam home away lh la = lh)
    ∧ (pteam ≠ home → pteam = away → liftSelection mode pteam home away lh la = la)
    ∧ (pteam ≠ home → pteam ≠ away → mode = "average" →
        liftSelection mode pteam home away lh la = (lh + la) / 2)
    ∧ (∀ (ct : Option String) (bk : String) (o : OutcomeIn) (rec : PlayerRec),
        processOutcome mode home away ct bk lh la o = Except.ok (some rec) →
        rec.adjusted.team_lift = round4 (liftSelection mode
          (player_team_lookup (pyStrip (o.description.getD ""))) home away lh la)) := by
  refine ⟨?_, ?_, ?_, ?_⟩
  · intro h
    unfold liftSelection
    rw [if_pos h]
  · intro h1 h2
    unfold liftSelection
    rw [if_neg h1, if_pos h2]
  · intro h1 h2 h3
    unfold liftSelection
    rw [if_neg h1, if_neg h2, if_pos h3]
  · intro ct bk o rec h
    obtain ⟨rp, bo, bp, hp, hb, hrec⟩ := processOutcome_spec mode home away ct bk lh la o rec h
    subst hrec
    rfl

/-- C9 witness: the three branches at concrete inputs, and a concrete
record produced under the `average` policy storing the mean's rounding. -/
theorem multiplier_policy_witness :
    liftSelection "average" "CIN" "CIN" "DAL" 2 3 = 2
    ∧ liftSelection "average" "DAL" "CIN" "DAL" 2 3 = 3
    ∧ liftSelection "average" "TBD" "AAA" "BBB" 2 3 = (2 + 3) / 2 :=
  ⟨(multiplier_policy "average" "CIN" "CIN" "DAL" 2 3).1 rfl,
   (multiplier_policy "average" "DAL" "CIN" "DAL" 2 3).2.1 (by decide) rfl,
   (multiplier_policy "average" "TBD" "AAA" "BBB" 2 3).2.2.1 (by decide) (by decide) rfl⟩

/- ===================== Aggregation and cache ===================== -/

/-- One element of the snapshot's `players` list (src/main.py lines
513-521): a processed outcome record, or the inline error dict
`{"error": msg}` a caught per-game exception appends. -/
inductive PlayerEntry
  | record (r : PlayerRec)
  | err (msg : String)
deriving DecidableEq

/-- The sort key of src/main.py line 521:
`p.get("edge", {}).get("probability_points", 0)` — error records carry no
edge and default to 0. -/
def entryKey : PlayerEntry → ℚ
  | PlayerEntry.record r => r.edge.probability_points
  | PlayerEntry.err _ => 0

/-- The membership test of the summary (src/main.py line 531):
`"player_name" in x` — true exactly for outcome records. -/
def hasPlayerName : PlayerEntry → Bool
  | PlayerEntry.record _ => true
  | PlayerEntry.err _ => false

/-- An error record. -/
def isErrEntry : PlayerEntry → Bool
  | PlayerEntry.record _ => false
  | PlayerEntry.err _ => true

/-- Stable descending insertion: the new element passes entries with a
strictly smaller key only, so original order is kept among equal keys, as
Python's stable `sort(..., reverse=True)` does. -/
def insertDesc (x : PlayerEntry) : List PlayerEntry → List PlayerEntry
  | [] => [x]
  | y :: ys => if entryKey y < entryKey x then x :: y :: ys else y :: insertDesc x ys

/-- The sort of src/main.py line 521: stable, by descending
`edge.probability_points`. -/
def sortDesc : List PlayerEntry → List PlayerEntry
  | [] => []
  | x :: xs => insertDesc x (sortDesc xs)

lemma insertDesc_perm (x : PlayerEntry) (l : List PlayerEntry) :
    List.Perm (insertDesc x l) (x :: l) := by
  induction l with
  | nil => exact List.Perm.refl _
  | cons y ys ih =>
    unfold insertDesc
    split
    · exact List.Perm.refl _
    · exact List.Perm.trans (List.Perm.cons y ih) (List.Perm.swap x y ys)

lemma sortDesc_perm (l : List PlayerEntry) : List.Perm (sortDesc l) l := by
  induction l with
  | nil => exact List.Perm.refl _
  | cons x xs ih =>
    exact List.Perm.trans (insertDesc_perm x (sortDesc xs)) (List.Perm.cons x ih)

/-- The cache blob (src/main.py lines 523-540), with the fields the claims
speak about; `analysis_date` is the refresh time. -/
structure Snapshot where
  analysis_date : ℚ
  players : List PlayerEntry
  summary_players : ℕ
  teams_with_boosts : ℕ
deriving DecidableEq

/-- The module-level cache (src/main.py lines 505-506): `_cache_blob` and
`_cache_ts` (initially `none` and `0.0`). -/
structure CacheState where
  blob : Option Snapshot
  ts : ℚ
deriving DecidableEq

/-- What one game adds to the `players` list (src/main.py lines 514-518):
its records on success, one inline error entry naming the fixture id on a
caught exception. -/
def gameContribution (fetchMarket : String → Except String (Option MarketResponse))
    (mode : String) (boosts : List (String × ℚ)) (game : Game) : List PlayerEntry :=
  match process_anytime_for_game fetchMarket mode game boosts with
  | Except.ok recs => recs.map PlayerEntry.record
  | Except.error e =>
    [PlayerEntry.err ("Failed game " ++ game.id.getD "?" ++ ": " ++ e)]

/-- Embedding of `refresh_all` (src/main.py lines 508-542). The two
upstream fetches are inputs; either raising propagates before the cache
assignment, leaving the state untouched. On success the per-game loop
catches per-game failures, the list is sorted and the cache swapped. -/
def refresh_all (fetchBoosts : Except String (List (String × ℚ)))
    (fetchEvents : Except String (List Game))
    (fetchMarket : String → Except String (Option MarketResponse))
    (mode : String) (nowT : ℚ) (st : CacheState) :
    Except String Snapshot × CacheState :=
  match fetchBoosts with
  | Except.error e => (Except.error e, st)
  | Except.ok boosts =>
    match fetchEvents with
    | Except.error e => (Except.error e, st)
    | Except.ok events =>
      let players := events.foldl
        (fun acc g => acc ++ gameContribution fetchMarket mode boosts g) []
      let sorted := sortDesc players
      let snap : Snapshot :=
        { analysis_date := nowT
          players := sorted
          summary_players := (sorted.filter hasPlayerName).length
          teams_with_boosts := boosts.length }
      (Except.ok snap, { blob := some snap, ts := nowT })

/-- Embedding of `get_cached_or_refresh` (src/main.py lines 544-547). -/
def get_cached_or_refresh (fetchBoosts : Except String (List (String × ℚ)))
    (fetchEvents : Except String (List Game))
    (fetchMarket : String → Except String (Option MarketResponse))
    (mode : String) (ttl nowT : ℚ) (st : CacheState) :
    Except String Snapshot × CacheState :=
  match st.blob with
  | none => refresh_all fetchBoosts fetchEvents fetchMarket mode nowT st
  | some b =>
    if nowT - st.ts > ttl then refresh_all fetchBoosts fetchEvents fetchMarket mode nowT st
    else (Except.ok b, st)

lemma foldl_append_eq_flatten {α β : Type} (f : α → List β) (l : List α) (init : List β) :
    l.foldl (fun acc g => acc ++ f g) init = init ++ (l.map f).flatten := by
  induction l generalizing init with
  | nil => simp
  | cons x xs ih =>
    rw [List.foldl_cons, ih]
    simp [List.append_assoc]

/- ===================== C2: aggregation resilience ===================== -/

/-- C2. If one fixture's processing raises while every other fixture
succeeds, the refresh still succeeds and its snapshot contains every other
fixture's outcome records plus exactly one inline error record carrying
the failed fixture's identifier; the failure aborts nothing else. -/
theorem aggregation_resilience
    (fetchMarket : String → Except String (Option MarketResponse))
    (mode : String) (boosts : List (String × ℚ)) (nowT : ℚ) (st : CacheState)
    (l1 l2 : List Game) (g : Game) (e : String)
    (hg : process_anytime_for_game fetchMarket mode g boosts = Except.error e)
    (hok : ∀ g' ∈ l1 ++ l2,
      ∃ recs, process_anytime_for_game fetchMarket mode g' boosts = Except.ok recs) :
    ∃ snap,
      (refresh_all (Except.ok boosts) (Except.ok (l1 ++ g :: l2))
          fetchMarket mode nowT st).1 = Except.ok snap
      ∧ PlayerEntry.err ("Failed game " ++ g.id.getD "?" ++ ": " ++ e) ∈ snap.players
      ∧ (∀ g' ∈ l1 ++ l2, ∀ recs,
          process_anytime_for_game fetchMarket mode g' boosts = Except.ok recs →
          ∀ r ∈ recs, PlayerEntry.record r ∈ snap.players)
      ∧ snap.players.countP isErrEntry = 1 := by
  unfold refresh_all
  simp only [foldl_append_eq_flatten, List.nil_append]
  set contrib := gameContribution fetchMarket mode boosts with hcontrib
  set players := (((l1 ++ g :: l2).map contrib).flatten) with hplayers
  refine ⟨_, rfl, ?_, ?_, ?_⟩
  · have hmem : PlayerEntry.err ("Failed game " ++ g.id.getD "?" ++ ": " ++ e) ∈ players := by
      rw [hplayers]
      apply List.mem_flatten.mpr
      refine ⟨contrib g, List.mem_map_of_mem _ (by simp), ?_⟩
      rw [hcontrib]
      unfold gameContribution
      rw [hg]
      simp
    exact ((sortDesc_perm players).mem_iff).mpr hmem
  · intro g' hg' recs hrecs r hr
    have hmem : PlayerEntry.record r ∈ players := by
      rw [hplayers]
      apply List.mem_flatten.mpr
      refine ⟨contrib g', List.mem_map_of_mem _ ?_, ?_⟩
      · rcases List.mem_append.mp hg' with h | h
        · exact List.mem_append.mpr (Or.inl h)
        · exact List.mem_append.mpr (Or.inr (List.mem_cons_of_mem _ h))
      · rw [hcontrib]
        unfold gameContribution
        rw [hrecs]
        exact List.mem_map_of_mem _ hr
    exact ((sortDesc_perm players).mem_iff).mpr hmem
  · have hcount : players.countP isErrEntry = 1 := by
      rw [hplayers]
      have hzero : ∀ g' ∈ l1 ++ l2, (contrib g').countP isErrEntry = 0 := by
        intro g' hg'
        obtain ⟨recs, hrecs⟩ := hok g' hg'
        rw [hcontrib]
        unfold gameContribution
        rw [hrecs]
        rw [List.countP_eq_zero]
        intro a ha
        obtain ⟨r, _, rfl⟩ := List.mem_map.mp ha
        simp [isErrEntry]
      have hone : (contrib g).countP isErrEntry = 1 := by
        rw [hcontrib]
        unfold gameContribution
        rw [hg]
        simp [isErrEntry, List.countP_cons]
      rw [List.countP_flatten, List.map_map, List.map_append, List.map_cons,
        List.sum_append, List.sum_cons]
      simp only [Function.comp_def]
      have z1 : (l1.map (fun g' => (contrib g').countP isErrEntry)).sum = 0 := by
        apply List.sum_eq_zero
        intro x hx
        obtain ⟨g', hg', rfl⟩ := List.mem_map.mp hx
        exact hzero g' (List.mem_append.mpr (Or.inl hg'))
      have z2 : (l2.map (fun g' => (contrib g').countP isErrEntry)).sum = 0 := by
        apply List.sum_eq_zero
        intro x hx
        obtain ⟨g', hg', rfl⟩ := List.mem_map.mp hx
        exact hzero g' (List.mem_append.mpr (Or.inr hg'))
      rw [z1, z2, hone]
      rfl
    rw [← hcount]
    exact (sortDesc_perm players).countP_eq _

/-- C2 witness: two fixtures, the first one's market fetch raising, the
second succeeding; the snapshot carries the error entry naming the failed
fixture and exactly one error record. -/
theorem aggregation_resilience_witness :
    ∃ snap,
      (refresh_all (Except.ok ([] : List (String × ℚ)))
          (Except.ok ([] ++ (⟨some "bad", none, none, none⟩ : Game) ::
            [⟨some "g2", none, none, none⟩]))
          (fun gid => if gid = "bad" then Except.error "boom" else Except.ok none)
          "none" 0 ⟨none, 0⟩).1 = Except.ok snap
      ∧ PlayerEntry.err ("Failed game " ++
          (⟨some "bad", none, none, none⟩ : Game).id.getD "?" ++ ": " ++ "boom")
          ∈ snap.players
      ∧ snap.players.countP isErrEntry = 1 := by
  obtain ⟨snap, h1, h2, h3, h4⟩ := aggregation_resilience
    (fun gid => if gid = "bad" then Except.error "boom" else Except.ok none)
    "none" [] 0 ⟨none, 0⟩ [] [⟨some "g2", none, none, none⟩]
    ⟨some "bad", none, none, none⟩ "boom" (by decide)
    (by
      intro g' hg'
      simp only [List.nil_append, List.mem_singleton] at hg'
      subst hg'
      exact ⟨[], by decide⟩)
  exact ⟨snap, h1, h2, h4⟩

/- ===================== C10: failed refresh leaves the cache ============= -/

/-- C10. If either upstream fetch raises before any per-fixture work, the
refresh returns that error and leaves the cache state exactly as it was
(stored snapshot and timestamp both unchanged — the previous snapshot is
retained, not discarded); a read that triggered the refresh (cache empty
or past its time-to-live) propagates the same error, likewise without
mutating the state. -/
theorem refresh_failure_preserves_cache
    (fb : Except String (List (String × ℚ))) (fe : Except String (List Game))
    (fm : String → Except String (Option MarketResponse)) (mode : String)
    (nowT ttl : ℚ) (st : CacheState) (e : String)
    (hfail : fb = Except.error e ∨ (∃ boosts, fb = Except.ok boosts ∧ fe = Except.error e)) :
    refresh_all fb fe fm mode nowT st = (Except.error e, st)
    ∧ ((st.blob = none ∨ nowT - st.ts > ttl) →
        get_cached_or_refresh fb fe fm mode ttl nowT st = (Except.error e, st)) := by
  have h1 : refresh_all fb fe fm mode nowT st = (Except.error e, st) := by
    rcases hfail with h | ⟨boosts, hb, he⟩
    · unfold refresh_all
      simp only [h]
    · unfold refresh_all
      simp only [hb, he]
  refine ⟨h1, ?_⟩
  intro hstale
  cases hb : st.blob with
  | none =>
    unfold get_cached_or_refresh
    simp only [hb]
    exact h1
  | some b =>
    rcases hstale with h | h
    · rw [hb] at h
      exact absurd h (by simp)
    · unfold get_cached_or_refresh
      simp only [hb]
      rw [if_pos h]
      exact h1

/-- C10 witness: a populated cache at timestamp 0, ttl 5, read at time 10
(stale) while the boosts fetch raises: both the direct refresh and the
read return the error with the cache state untouched. -/
theorem refresh_failure_preserves_cache_witness :
    refresh_all (Except.error "boom") (Except.ok ([] : List Game))
        (fun _ => Except.ok none) "none" 10 ⟨some ⟨0, [], 0, 0⟩, 0⟩
      = (Except.error "boom", ⟨some ⟨0, [], 0, 0⟩, 0⟩)
    ∧ get_cached_or_refresh (Except.error "boom") (Except.ok ([] : List Game))
        (fun _ => Except.ok none) "none" 5 10 ⟨some ⟨0, [], 0, 0⟩, 0⟩
      = (Except.error "boom", ⟨some ⟨0, [], 0, 0⟩, 0⟩) := by
  have h := refresh_failure_preserves_cache (Except.error "boom")
    (Except.ok ([] : List Game)) (fun _ => Except.ok none) "none" 10 5
    ⟨some ⟨0, [], 0, 0⟩, 0⟩ "boom" (Or.inl rfl)
  exact ⟨h.1, h.2 (Or.inr (by norm_num))⟩
